import Mathlib

/-! Verification of the NeuroCurveCalibration aim-trainer core logic.

This file gives a shallow embedding of the repository's gameplay math:
the sensitivity transfer curve (`src/sensitivity.rs`), ray/sphere hit
testing and hit resolution (`src/target.rs`), the score tracker
(`src/target.rs`), the scenario sequencer (`src/main.rs`), target
movement with axis-aligned bounce (`src/target.rs`), and the points
bookkeeping of the main prototype (`src/main.rs`).  `f32` arithmetic is
modelled by exact arithmetic: real numbers where `sqrt`/`powf` appear,
rational numbers where only field operations and comparisons appear.
-/

namespace AimTrainer

/-- Rust `x.clamp(lo, hi)` (for `lo ≤ hi`). -/
def clampVal {α : Type} [LinearOrder α] (x lo hi : α) : α := min (max x lo) hi

/-- A 3-component vector, the embedding of `bevy::math::Vec3`. -/
structure Vec3 (α : Type) where
  x : α
  y : α
  z : α
deriving DecidableEq

instance {α : Type} [Add α] : Add (Vec3 α) where
  add a b := ⟨a.x + b.x, a.y + b.y, a.z + b.z⟩

instance {α : Type} [Sub α] : Sub (Vec3 α) where
  sub a b := ⟨a.x - b.x, a.y - b.y, a.z - b.z⟩

instance {α : Type} [Mul α] : SMul α (Vec3 α) where
  smul c a := ⟨c * a.x, c * a.y, c * a.z⟩

/-- Dot product of two vectors. -/
def dotV {α : Type} [Mul α] [Add α] (a b : Vec3 α) : α :=
  a.x * b.x + a.y * b.y + a.z * b.z

/-- Squared euclidean length (`Vec3::length_squared`). -/
def lengthSq {α : Type} [Mul α] [Add α] (a : Vec3 α) : α :=
  a.x * a.x + a.y * a.y + a.z * a.z

theorem Vec3.add_def {α : Type} [Add α] (a b : Vec3 α) :
    a + b = ⟨a.x + b.x, a.y + b.y, a.z + b.z⟩ := rfl

theorem Vec3.sub_def {α : Type} [Sub α] (a b : Vec3 α) :
    a - b = ⟨a.x - b.x, a.y - b.y, a.z - b.z⟩ := rfl

theorem Vec3.smul_def {α : Type} [Mul α] (c : α) (a : Vec3 α) :
    c • a = ⟨c * a.x, c * a.y, c * a.z⟩ := rfl

/-! Section: Sensitivity curve (`src/sensitivity.rs`, `calculate_sensitivity_multiplier`) -/

/-- The `CurveParameters` from `src/sensitivity.rs`. -/
structure CurveParameters where
  min_sens : ℝ
  max_sens : ℝ
  range : ℝ
  growth_base : ℝ
  offset : ℝ
  plateau : Bool

/-- The local `sens_diff = params.max_sens - params.min_sens`. -/
noncomputable def sensDiff (p : CurveParameters) : ℝ := p.max_sens - p.min_sens

/-- The local `t = (input_after_offset / params.range).clamp(0.0, 1.0)`
(normalized progress within the range). -/
noncomputable def curveT (speed : ℝ) (p : CurveParameters) : ℝ :=
  clampVal ((speed - p.offset) / p.range) 0 1

/-- The local `multiplier_increase`: smoothstep branch for
`growth_base <= 1.0`, exponential branch (with `base_factor` and the
clamped `expo_t`) for `growth_base > 1.0`. -/
noncomputable def multiplierIncrease (speed : ℝ) (p : CurveParameters) : ℝ :=
  if p.growth_base ≤ 1 then
    sensDiff p * (curveT speed p * curveT speed p * (3 - 2 * curveT speed p))
  else
    sensDiff p *
      clampVal ((p.growth_base ^ (speed - p.offset) - 1) *
        (1 / (p.growth_base ^ p.range - 1))) 0 1

/-- The local `calculated_sens = params.min_sens + multiplier_increase`. -/
noncomputable def calculatedSens (speed : ℝ) (p : CurveParameters) : ℝ :=
  p.min_sens + multiplierIncrease speed p

/-- The `calculate_sensitivity_multiplier` from `src/sensitivity.rs`
(lines 36-76): early return `min_sens` for `speed <= offset`; early
return `min_sens` for degenerate parameters (`sens_diff <= 0.0 ||
range <= 0.0`, which in the source also skips the divisions by `range`
and by `growth_base^range - 1`); otherwise the plateau clamp
`calculated_sens.min(max_sens)`, or without plateau `max_sens` once
`t >= 1.0` and the raw `calculated_sens` below that. -/
noncomputable def calculate_sensitivity_multiplier (speed : ℝ) (p : CurveParameters) : ℝ :=
  if speed ≤ p.offset then p.min_sens
  else if sensDiff p ≤ 0 ∨ p.range ≤ 0 then p.min_sens
  else if p.plateau then min (calculatedSens speed p) p.max_sens
  else if 1 ≤ curveT speed p then p.max_sens
  else calculatedSens speed p

theorem clampVal_mono {α : Type} [LinearOrder α] {x y : α} (lo hi : α) (h : x ≤ y) :
    clampVal x lo hi ≤ clampVal y lo hi :=
  min_le_min (max_le_max h le_rfl) le_rfl

theorem le_clampVal {α : Type} [LinearOrder α] (x : α) {lo hi : α} (h : lo ≤ hi) :
    lo ≤ clampVal x lo hi :=
  le_min (le_max_right _ _) h

theorem clampVal_le {α : Type} [LinearOrder α] (x lo hi : α) : clampVal x lo hi ≤ hi :=
  min_le_right _ _

theorem clampVal_eq_hi {α : Type} [LinearOrder α] {x lo hi : α} (h : hi ≤ x) :
    clampVal x lo hi = hi :=
  min_eq_right (le_trans h (le_max_left x lo))

theorem one_le_of_clampVal_eq_one {x : ℝ} (h : clampVal x 0 1 = 1) : 1 ≤ x := by
  by_contra hx
  push_neg at hx
  have hmax : max x 0 < 1 := max_lt hx one_pos
  have : clampVal x 0 1 = max x 0 := min_eq_left (le_of_lt hmax)
  rw [h] at this
  exact absurd this.symm (ne_of_lt hmax)

theorem curveT_nonneg (speed : ℝ) (p : CurveParameters) : 0 ≤ curveT speed p :=
  le_clampVal _ zero_le_one

theorem curveT_le_one (speed : ℝ) (p : CurveParameters) : curveT speed p ≤ 1 :=
  clampVal_le _ _ _

theorem curveT_mono {p : CurveParameters} (hr : 0 < p.range) {s1 s2 : ℝ} (h : s1 ≤ s2) :
    curveT s1 p ≤ curveT s2 p := by
  apply clampVal_mono
  gcongr

theorem curveT_eq_one {p : CurveParameters} (hr : 0 < p.range) {s : ℝ}
    (h : p.offset + p.range ≤ s) : curveT s p = 1 := by
  apply clampVal_eq_hi
  rw [le_div_iff hr]
  linarith

theorem range_le_of_curveT_eq_one {p : CurveParameters} (hr : 0 < p.range) {s : ℝ}
    (h : curveT s p = 1) : p.offset + p.range ≤ s := by
  have h1 : 1 ≤ (s - p.offset) / p.range := one_le_of_clampVal_eq_one h
  rw [le_div_iff hr] at h1
  linarith

theorem smoothstep_nonneg {t : ℝ} (h0 : 0 ≤ t) (h1 : t ≤ 1) :
    0 ≤ t * t * (3 - 2 * t) := by nlinarith

theorem smoothstep_le_one {t : ℝ} (h0 : 0 ≤ t) (h1 : t ≤ 1) :
    t * t * (3 - 2 * t) ≤ 1 := by
  nlinarith [mul_nonneg (sq_nonneg (1 - t)) (by linarith : (0:ℝ) ≤ 1 + 2 * t)]

theorem smoothstep_mono {a b : ℝ} (h0 : 0 ≤ a) (hab : a ≤ b) (hb1 : b ≤ 1) :
    a * a * (3 - 2 * a) ≤ b * b * (3 - 2 * b) := by
  nlinarith [mul_nonneg (sub_nonneg.2 hab) (mul_nonneg h0 (by linarith : (0:ℝ) ≤ 1 - a)),
    mul_nonneg (sub_nonneg.2 hab) (mul_nonneg (by linarith : (0:ℝ) ≤ b) (by linarith : (0:ℝ) ≤ 1 - b)),
    mul_nonneg (sub_nonneg.2 hab) (mul_nonneg h0 (by linarith : (0:ℝ) ≤ 1 - b)),
    mul_nonneg (sub_nonneg.2 hab) (mul_nonneg (by linarith : (0:ℝ) ≤ b) (by linarith : (0:ℝ) ≤ 1 - a))]

theorem growth_denom_pos {p : CurveParameters} (hb : 1 < p.growth_base) (hr : 0 < p.range) :
    0 < p.growth_base ^ p.range - 1 := by
  have : 1 < p.growth_base ^ p.range :=
    Real.one_lt_rpow_iff_of_pos (by linarith) |>.2 (Or.inl ⟨hb, hr⟩)
  linarith

theorem multiplierIncrease_nonneg {p : CurveParameters} (hd : 0 ≤ sensDiff p)
    (s : ℝ) : 0 ≤ multiplierIncrease s p := by
  unfold multiplierIncrease
  split_ifs
  · exact mul_nonneg hd (smoothstep_nonneg (curveT_nonneg s p) (curveT_le_one s p))
  · exact mul_nonneg hd (le_clampVal _ zero_le_one)

theorem multiplierIncrease_le_diff {p : CurveParameters} (hd : 0 ≤ sensDiff p)
    (s : ℝ) : multiplierIncrease s p ≤ sensDiff p := by
  unfold multiplierIncrease
  split_ifs
  · calc sensDiff p * (curveT s p * curveT s p * (3 - 2 * curveT s p))
        ≤ sensDiff p * 1 :=
          mul_le_mul_of_nonneg_left (smoothstep_le_one (curveT_nonneg s p) (curveT_le_one s p)) hd
      _ = sensDiff p := mul_one _
  · calc sensDiff p * clampVal _ 0 1 ≤ sensDiff p * 1 :=
          mul_le_mul_of_nonneg_left (clampVal_le _ _ _) hd
      _ = sensDiff p := mul_one _

theorem multiplierIncrease_mono {p : CurveParameters} (hd : 0 ≤ sensDiff p)
    (hr : 0 < p.range) {s1 s2 : ℝ} (h : s1 ≤ s2) :
    multiplierIncrease s1 p ≤ multiplierIncrease s2 p := by
  unfold multiplierIncrease
  split_ifs
  · exact mul_le_mul_of_nonneg_left
      (smoothstep_mono (curveT_nonneg s1 p) (curveT_mono hr h) (curveT_le_one s2 p)) hd
  · next hb =>
    push_neg at hb
    apply mul_le_mul_of_nonneg_left _ hd
    apply clampVal_mono
    have hrp : p.growth_base ^ (s1 - p.offset) ≤ p.growth_base ^ (s2 - p.offset) :=
      (Real.rpow_le_rpow_left_iff hb).2 (by linarith)
    have hbf : 0 < 1 / (p.growth_base ^ p.range - 1) :=
      one_div_pos.2 (growth_denom_pos hb hr)
    exact mul_le_mul_of_nonneg_right (by linarith) (le_of_lt hbf)

theorem multiplierIncrease_eq_diff {p : CurveParameters} (hr : 0 < p.range)
    {s : ℝ} (h : p.offset + p.range ≤ s) : multiplierIncrease s p = sensDiff p := by
  unfold multiplierIncrease
  split_ifs
  · rw [curveT_eq_one hr h]; ring
  · next hb =>
    push_neg at hb
    have hden : 0 < p.growth_base ^ p.range - 1 := growth_denom_pos hb hr
    have hrp : p.growth_base ^ p.range ≤ p.growth_base ^ (s - p.offset) :=
      (Real.rpow_le_rpow_left_iff hb).2 (by linarith)
    have h1 : 1 ≤ (p.growth_base ^ (s - p.offset) - 1) * (1 / (p.growth_base ^ p.range - 1)) := by
      rw [mul_one_div, le_div_iff hden]
      linarith
    rw [clampVal_eq_hi h1]; ring

theorem calc_sens_of_gt {p : CurveParameters} {s : ℝ} (h : ¬ s ≤ p.offset)
    (hdeg : ¬ (sensDiff p ≤ 0 ∨ p.range ≤ 0)) :
    calculate_sensitivity_multiplier s p =
      if p.plateau then min (calculatedSens s p) p.max_sens
      else if 1 ≤ curveT s p then p.max_sens
      else calculatedSens s p := by
  unfold calculate_sensitivity_multiplier
  rw [if_neg h, if_neg hdeg]

theorem min_sens_le_calc {p : CurveParameters} (hms : p.min_sens < p.max_sens)
    (hr : 0 < p.range) (s : ℝ) :
    p.min_sens ≤ calculate_sensitivity_multiplier s p := by
  have hd : 0 < sensDiff p := sub_pos.2 hms
  by_cases hs : s ≤ p.offset
  · unfold calculate_sensitivity_multiplier
    rw [if_pos hs]
  · rw [calc_sens_of_gt hs (by push_neg; exact ⟨hd, hr⟩)]
    have hinc := multiplierIncrease_nonneg (le_of_lt hd) (p := p) s
    split_ifs
    · exact le_min (by unfold calculatedSens; linarith) (le_of_lt hms)
    · exact le_of_lt hms
    · unfold calculatedSens; linarith

theorem calc_le_max_sens {p : CurveParameters} (hms : p.min_sens < p.max_sens)
    (hr : 0 < p.range) (s : ℝ) :
    calculate_sensitivity_multiplier s p ≤ p.max_sens := by
  have hd : 0 < sensDiff p := sub_pos.2 hms
  by_cases hs : s ≤ p.offset
  · unfold calculate_sensitivity_multiplier
    rw [if_pos hs]
    exact le_of_lt hms
  · rw [calc_sens_of_gt hs (by push_neg; exact ⟨hd, hr⟩)]
    have hinc := multiplierIncrease_le_diff (le_of_lt hd) (p := p) s
    split_ifs
    · exact min_le_right _ _
    · exact le_rfl
    · unfold calculatedSens sensDiff at *; linarith

/-- C1: For parameters with `max_sens > min_sens` and `range > 0`,
`calculate_sensitivity_multiplier` is monotonically non-decreasing in
`speed` on `[0, offset + range]`, and for every `speed > offset + range`
with `plateau` set it returns exactly `max_sens`. -/
theorem C1_sensitivity_monotone_and_plateau (p : CurveParameters)
    (hms : p.min_sens < p.max_sens) (hr : 0 < p.range) :
    (∀ s1 s2 : ℝ, 0 ≤ s1 → s1 ≤ s2 → s2 ≤ p.offset + p.range →
      calculate_sensitivity_multiplier s1 p ≤ calculate_sensitivity_multiplier s2 p) ∧
    (∀ s : ℝ, p.offset + p.range < s → p.plateau = true →
      calculate_sensitivity_multiplier s p = p.max_sens) := by
  have hd : 0 < sensDiff p := sub_pos.2 hms
  have hdeg : ¬ (sensDiff p ≤ 0 ∨ p.range ≤ 0) := by push_neg; exact ⟨hd, hr⟩
  constructor
  · intro s1 s2 _ h12 _
    by_cases hs2 : s2 ≤ p.offset
    · unfold calculate_sensitivity_multiplier
      rw [if_pos (le_trans h12 hs2), if_pos hs2]
    · by_cases hs1 : s1 ≤ p.offset
      · calc calculate_sensitivity_multiplier s1 p = p.min_sens := by
              unfold calculate_sensitivity_multiplier; rw [if_pos hs1]
          _ ≤ calculate_sensitivity_multiplier s2 p := min_sens_le_calc hms hr s2
      · rw [calc_sens_of_gt hs1 hdeg, calc_sens_of_gt hs2 hdeg]
        have hmono := multiplierIncrease_mono (le_of_lt hd) hr h12
        have hle1 := multiplierIncrease_le_diff (le_of_lt hd) (p := p) s1
        have ht := curveT_mono hr h12
        split_ifs with hpl h1 h2 h2
        · exact min_le_min (by unfold calculatedSens; linarith) le_rfl
        · exact le_rfl
        · exact absurd (le_trans h1 ht) h2
        · unfold calculatedSens sensDiff at *; linarith
        · unfold calculatedSens; linarith
  · intro s hs hpl
    have hs' : ¬ s ≤ p.offset := by push_neg; linarith
    rw [calc_sens_of_gt hs' hdeg]
    rw [if_pos hpl]
    have : calculatedSens s p = p.max_sens := by
      unfold calculatedSens
      rw [multiplierIncrease_eq_diff hr (le_of_lt hs)]
      unfold sensDiff; ring
    rw [this, min_self]

/-- The Rust default `CurveParameters` (from `src/sensitivity.rs`). -/
noncomputable def defaultParams : CurveParameters :=
  { min_sens := 1, max_sens := 3, range := 500, growth_base := 1.02, offset := 50,
    plateau := true }

/-- Witness for C1 at the default parameters. -/
theorem C1_sensitivity_monotone_and_plateau_witness :
    calculate_sensitivity_multiplier 60 defaultParams ≤
      calculate_sensitivity_multiplier 70 defaultParams ∧
    calculate_sensitivity_multiplier 600 defaultParams = defaultParams.max_sens := by
  have h := C1_sensitivity_monotone_and_plateau defaultParams
    (by norm_num [defaultParams]) (by norm_num [defaultParams])
  exact ⟨h.1 60 70 (by norm_num) (by norm_num) (by norm_num [defaultParams]),
    h.2 600 (by norm_num [defaultParams]) rfl⟩

/-- C2: For parameters with `max_sens > min_sens` and `range > 0`, the
multiplier never exceeds `max_sens` for any speed and either plateau
setting; and with `plateau = false`, whenever the normalized progress
`t = clamp((speed-offset)/range, 0, 1)` reaches `1.0` the function
returns exactly `max_sens`. -/
theorem C2_sensitivity_never_exceeds_max (p : CurveParameters)
    (hms : p.min_sens < p.max_sens) (hr : 0 < p.range) :
    (∀ s : ℝ, calculate_sensitivity_multiplier s p ≤ p.max_sens) ∧
    (p.plateau = false → ∀ s : ℝ, curveT s p = 1 →
      calculate_sensitivity_multiplier s p = p.max_sens) := by
  have hd : 0 < sensDiff p := sub_pos.2 hms
  refine ⟨calc_le_max_sens hms hr, fun hpl s ht => ?_⟩
  have hrange : p.offset + p.range ≤ s := range_le_of_curveT_eq_one hr ht
  have hs : ¬ s ≤ p.offset := by push_neg; linarith
  rw [calc_sens_of_gt hs (by push_neg; exact ⟨hd, hr⟩), hpl]
  simp only [Bool.false_eq_true, if_false]
  rw [if_pos (le_of_eq ht.symm)]

/-- The default parameters with `plateau` disabled. -/
noncomputable def defaultParamsNoPlateau : CurveParameters :=
  { min_sens := 1, max_sens := 3, range := 500, growth_base := 1.02, offset := 50,
    plateau := false }

/-- Witness for C2: no-overshoot bound at the default parameters and the
exact `max_sens` value at `t = 1` with `plateau = false`. -/
theorem C2_sensitivity_never_exceeds_max_witness :
    calculate_sensitivity_multiplier 10000 defaultParams ≤ defaultParams.max_sens ∧
    calculate_sensitivity_multiplier 550 defaultParamsNoPlateau =
      defaultParamsNoPlateau.max_sens := by
  constructor
  · exact (C2_sensitivity_never_exceeds_max defaultParams
      (by norm_num [defaultParams]) (by norm_num [defaultParams])).1 10000
  · apply (C2_sensitivity_never_exceeds_max defaultParamsNoPlateau
      (by norm_num [defaultParamsNoPlateau]) (by norm_num [defaultParamsNoPlateau])).2 rfl 550
    have : ((550 : ℝ) - 50) / 500 = 1 := by norm_num
    unfold curveT clampVal defaultParamsNoPlateau
    norm_num

/-- C3: `calculate_sensitivity_multiplier` returns exactly `min_sens`
whenever `speed <= offset`, and whenever the parameters are degenerate
(`range <= 0` or `max_sens <= min_sens`); in the source those cases
return before the divisions by `range` and by `growth_base^range - 1`
are reached. -/
theorem C3_sensitivity_degenerate_min_sens (p : CurveParameters) :
    (∀ s : ℝ, s ≤ p.offset → calculate_sensitivity_multiplier s p = p.min_sens) ∧
    (∀ s : ℝ, p.max_sens ≤ p.min_sens ∨ p.range ≤ 0 →
      calculate_sensitivity_multiplier s p = p.min_sens) := by
  constructor
  · intro s hs
    unfold calculate_sensitivity_multiplier
    rw [if_pos hs]
  · intro s hdeg
    by_cases hs : s ≤ p.offset
    · unfold calculate_sensitivity_multiplier
      rw [if_pos hs]
    · unfold calculate_sensitivity_multiplier
      rw [if_neg hs, if_pos]
      rcases hdeg with h | h
      · exact Or.inl (by unfold sensDiff; linarith)
      · exact Or.inr h

/-- Degenerate parameters (`max_sens < min_sens`). -/
noncomputable def invertedParams : CurveParameters :=
  { min_sens := 3, max_sens := 1, range := 500, growth_base := 1.02, offset := 50,
    plateau := true }

/-- Witness for C3: below-offset speed and inverted min/max both yield
`min_sens`. -/
theorem C3_sensitivity_degenerate_min_sens_witness :
    calculate_sensitivity_multiplier 10 defaultParams = defaultParams.min_sens ∧
    calculate_sensitivity_multiplier 100 invertedParams = invertedParams.min_sens := by
  exact ⟨(C3_sensitivity_degenerate_min_sens defaultParams).1 10 (by norm_num [defaultParams]),
    (C3_sensitivity_degenerate_min_sens invertedParams).2 100
      (Or.inl (by norm_num [invertedParams]))⟩

/-! Section: Ray/sphere intersection (`src/target.rs`, `Hitbox::intersect_ray`) -/

/-- The local `projection = origin_to_center.dot(*ray.direction)` with
`origin_to_center = transform.translation() - ray.origin`. -/
noncomputable def projection (o d c : Vec3 ℝ) : ℝ := dotV (c - o) d

/-- The local `distance_sq = origin_to_center.length_squared() -
projection * projection`. -/
noncomputable def distance_sq (o d c : Vec3 ℝ) : ℝ :=
  lengthSq (c - o) - projection o d c * projection o d c

/-- The local `half_chord_distance = (radius_sq - distance_sq).sqrt()`. -/
noncomputable def half_chord (o d c : Vec3 ℝ) (r : ℝ) : ℝ :=
  Real.sqrt (r * r - distance_sq o d c)

/-- The `Hitbox::intersect_ray` for `Hitbox::Sphere` (`src/target.rs` lines
62-89): miss if `distance_sq > radius_sq`, otherwise the first of
`projection ∓ half_chord_distance` that is `> 1e-6`, else `None`. -/
noncomputable def intersect_ray (o d c : Vec3 ℝ) (r : ℝ) : Option ℝ :=
  if r * r < distance_sq o d c then none
  else if 1e-6 < projection o d c - half_chord o d c r then
    some (projection o d c - half_chord o d c r)
  else if 1e-6 < projection o d c + half_chord o d c r then
    some (projection o d c + half_chord o d c r)
  else none

theorem intersect_ray_some_pos {o d c : Vec3 ℝ} {r t : ℝ}
    (ht : intersect_ray o d c r = some t) : 0 < t := by
  have heps : (0:ℝ) < 1e-6 := by norm_num
  unfold intersect_ray at ht
  split_ifs at ht with h1 h2 h3
  · rw [Option.some.injEq] at ht
    linarith
  · rw [Option.some.injEq] at ht
    linarith

theorem lengthSq_ray_point (o d c : Vec3 ℝ) (hd : lengthSq d = 1) (t : ℝ) :
    lengthSq ((o + t • d) - c) = t ^ 2 - 2 * t * projection o d c + lengthSq (c - o) := by
  simp only [lengthSq, projection, dotV, Vec3.add_def, Vec3.sub_def, Vec3.smul_def] at hd ⊢
  linear_combination t ^ 2 * hd

/-- C4: Ray/sphere intersection: `distance_sq` is the squared
perpendicular distance from the sphere center to the ray line (for a
unit direction); if it exceeds `radius^2` the result is `None`;
otherwise the two values `projection ∓ half_chord` are exactly the
quadratic roots (points at squared distance `radius^2` from the
center), ordered, and the function returns the first root if it is
ahead of the origin (`> 1e-6`), else the second if it alone is ahead,
else `None`; every returned distance is strictly positive. -/
theorem C4_ray_sphere_intersection (o d c : Vec3 ℝ) (r : ℝ) (hd : lengthSq d = 1) :
    (r * r < distance_sq o d c → intersect_ray o d c r = none) ∧
    distance_sq o d c = lengthSq ((c - o) - projection o d c • d) ∧
    (distance_sq o d c ≤ r * r →
      lengthSq ((o + (projection o d c - half_chord o d c r) • d) - c) = r * r ∧
      lengthSq ((o + (projection o d c + half_chord o d c r) • d) - c) = r * r ∧
      projection o d c - half_chord o d c r ≤ projection o d c + half_chord o d c r ∧
      intersect_ray o d c r =
        (if 1e-6 < projection o d c - half_chord o d c r then
          some (projection o d c - half_chord o d c r)
        else if 1e-6 < projection o d c + half_chord o d c r then
          some (projection o d c + half_chord o d c r)
        else none)) ∧
    (∀ t : ℝ, intersect_ray o d c r = some t → 0 < t) := by
  refine ⟨fun h => ?_, ?_, fun h => ?_, fun t ht => ?_⟩
  · unfold intersect_ray
    rw [if_pos h]
  · simp only [distance_sq, projection, lengthSq, dotV, Vec3.sub_def, Vec3.smul_def] at *
    linear_combination (-(((c.x - o.x) * d.x + (c.y - o.y) * d.y + (c.z - o.z) * d.z) ^ 2)) * hd
  · have hsq : half_chord o d c r ^ 2 = r * r - distance_sq o d c :=
      Real.sq_sqrt (by linarith)
    have hsqrt0 : 0 ≤ half_chord o d c r := Real.sqrt_nonneg _
    unfold distance_sq at hsq
    refine ⟨?_, ?_, by linarith, ?_⟩
    · rw [lengthSq_ray_point o d c hd]
      linear_combination hsq
    · rw [lengthSq_ray_point o d c hd]
      linear_combination hsq
    · unfold intersect_ray
      rw [if_neg (not_lt.2 h)]
  · exact intersect_ray_some_pos ht

/-- Witness for C4: a unit ray from the origin aimed at a sphere of
radius 1 centered 5 units down the axis hits at distance 4, which is
positive. -/
theorem C4_ray_sphere_intersection_witness :
    lengthSq (⟨0, 0, -1⟩ : Vec3 ℝ) = 1 ∧ (0:ℝ) < 4 := by
  have hd : lengthSq (⟨0, 0, -1⟩ : Vec3 ℝ) = 1 := by norm_num [lengthSq]
  refine ⟨hd, ?_⟩
  apply (C4_ray_sphere_intersection ⟨0, 0, 0⟩ ⟨0, 0, -1⟩ ⟨0, 0, -5⟩ 1 hd).2.2.2 4
  have hds : distance_sq (⟨0, 0, 0⟩ : Vec3 ℝ) ⟨0, 0, -1⟩ ⟨0, 0, -5⟩ = 0 := by
    norm_num [distance_sq, projection, lengthSq, dotV, Vec3.sub_def]
  have hproj : projection (⟨0, 0, 0⟩ : Vec3 ℝ) ⟨0, 0, -1⟩ ⟨0, 0, -5⟩ = 5 := by
    norm_num [projection, dotV, Vec3.sub_def]
  have hhc : half_chord (⟨0, 0, 0⟩ : Vec3 ℝ) ⟨0, 0, -1⟩ ⟨0, 0, -5⟩ 1 = 1 := by
    rw [half_chord, hds]
    norm_num
  rw [intersect_ray, hds, hproj, hhc]
  norm_num

/-! Section: Hit resolution (`src/target.rs`, `detect_target_hits`) -/

/-- One row of the `detect_target_hits` target query: entity id, the
`GlobalTransform` translation, the `Hitbox::Sphere` radius, and whether
the optional `spawn_timer` is absent or finished (the source skips
targets whose spawn timer has not finished). -/
structure TargetEntry where
  entity : ℕ
  translation : Vec3 ℝ
  hitboxRadius : ℝ
  spawnFinished : Bool

/-- The `TargetHitEvent` from `src/target.rs`. -/
structure TargetHitEvent where
  target_entity : ℕ
  hit_position : Vec3 ℝ
  damage : ℤ

/-- The body of the `for` loop of `detect_target_hits`: keep the
closest hit, updating when `closest_hit.is_none() || hit_distance <
closest_hit.unwrap().0`. -/
noncomputable def closestHitFold (o d : Vec3 ℝ) (acc : Option (ℝ × ℕ × Vec3 ℝ))
    (t : TargetEntry) : Option (ℝ × ℕ × Vec3 ℝ) :=
  if t.spawnFinished = false then acc
  else
    match intersect_ray o d t.translation t.hitboxRadius with
    | none => acc
    | some hit_distance =>
      match acc with
      | none => some (hit_distance, t.entity, o + hit_distance • d)
      | some best =>
        if hit_distance < best.1 then some (hit_distance, t.entity, o + hit_distance • d)
        else some best

/-- The `detect_target_hits` (`src/target.rs` lines 324-376): on a
left-click press, fold over all targets keeping the closest ray hit,
then send one `TargetHitEvent` (damage 1) for it, or none at all. -/
noncomputable def detect_target_hits (justPressed : Bool) (o d : Vec3 ℝ)
    (targets : List TargetEntry) : List TargetHitEvent :=
  if justPressed = false then []
  else
    match targets.foldl (closestHitFold o d) none with
    | some e => [⟨e.2.1, e.2.2, 1⟩]
    | none => []

/-- A target the loop does not skip and that the ray intersects. -/
def Candidate (o d : Vec3 ℝ) (t : TargetEntry) : Prop :=
  t.spawnFinished = true ∧ ∃ dist, intersect_ray o d t.translation t.hitboxRadius = some dist

/-- The accumulator entry records an actual intersection of some listed
target. -/
def EntryFrom (o d : Vec3 ℝ) (l : List TargetEntry) (e : ℝ × ℕ × Vec3 ℝ) : Prop :=
  ∃ t ∈ l, t.spawnFinished = true ∧
    intersect_ray o d t.translation t.hitboxRadius = some e.1 ∧
    e.2.1 = t.entity ∧ e.2.2 = o + e.1 • d

/-- The accumulator entry's distance is minimal among all listed
candidates. -/
def MinEntry (o d : Vec3 ℝ) (l : List TargetEntry) (e : ℝ × ℕ × Vec3 ℝ) : Prop :=
  ∀ t ∈ l, t.spawnFinished = true →
    ∀ dist, intersect_ray o d t.translation t.hitboxRadius = some dist → e.1 ≤ dist

theorem closestHitFold_spec (o d : Vec3 ℝ) (l : List TargetEntry) :
    ∀ acc : Option (ℝ × ℕ × Vec3 ℝ),
      (l.foldl (closestHitFold o d) acc = none →
        acc = none ∧ ∀ t ∈ l, ¬ Candidate o d t) ∧
      (∀ e, l.foldl (closestHitFold o d) acc = some e →
        (acc = some e ∨ EntryFrom o d l e) ∧ MinEntry o d l e ∧
        (∀ a, acc = some a → e.1 ≤ a.1)) := by
  induction l with
  | nil =>
    intro acc
    refine ⟨fun h => ⟨h, by simp⟩, fun e he => ?_⟩
    simp only [List.foldl_nil] at he
    refine ⟨Or.inl he, by simp [MinEntry], fun a ha => ?_⟩
    rw [he] at ha
    rw [Option.some.injEq] at ha
    rw [ha]
  | cons t tl ih =>
    intro acc
    by_cases hspawn : t.spawnFinished = false
    · -- head skipped
      have hstep : closestHitFold o d acc t = acc := by
        simp only [closestHitFold, hspawn, if_true]
      rw [List.foldl_cons, hstep]
      refine ⟨fun h => ?_, fun e he => ?_⟩
      · obtain ⟨hacc, htl⟩ := (ih acc).1 h
        refine ⟨hacc, fun u hu hc => ?_⟩
        rcases List.mem_cons.1 hu with hu | hu
        · rw [hu] at hc
          exact absurd hc.1 (by rw [hspawn]; simp)
        · exact htl u hu hc
      · obtain ⟨hor, hmin, hle⟩ := (ih acc).2 e he
        refine ⟨?_, fun u hu hus dist hdist => ?_, hle⟩
        · rcases hor with h | ⟨u, hu, h⟩
          · exact Or.inl h
          · exact Or.inr ⟨u, List.mem_cons_of_mem _ hu, h⟩
        · rcases List.mem_cons.1 hu with hu | hu
          · rw [hu] at hus
            rw [hus] at hspawn
            simp at hspawn
          · exact hmin u hu hus dist hdist
    · -- head not skipped
      rw [Bool.not_eq_false] at hspawn
      rcases hint : intersect_ray o d t.translation t.hitboxRadius with _ | dist
      · -- head does not intersect
        have hstep : closestHitFold o d acc t = acc := by
          simp only [closestHitFold, hspawn, hint]
          simp
        rw [List.foldl_cons, hstep]
        refine ⟨fun h => ?_, fun e he => ?_⟩
        · obtain ⟨hacc, htl⟩ := (ih acc).1 h
          refine ⟨hacc, fun u hu hc => ?_⟩
          rcases List.mem_cons.1 hu with hu | hu
          · rw [hu] at hc
            obtain ⟨d1, hd1⟩ := hc.2
            rw [hint] at hd1
            exact absurd hd1 (by simp)
          · exact htl u hu hc
        · obtain ⟨hor, hmin, hle⟩ := (ih acc).2 e he
          refine ⟨?_, fun u hu hus d1 hd1 => ?_, hle⟩
          · rcases hor with h | ⟨u, hu, h⟩
            · exact Or.inl h
            · exact Or.inr ⟨u, List.mem_cons_of_mem _ hu, h⟩
          · rcases List.mem_cons.1 hu with hu | hu
            · rw [hu, hint] at hd1
              exact absurd hd1 (by simp)
            · exact hmin u hu hus d1 hd1
      · -- head intersects at `dist`
        rcases acc with _ | best
        · -- empty accumulator: take the head hit
          have hstep : closestHitFold o d none t =
              some (dist, t.entity, o + dist • d) := by
            simp only [closestHitFold, hspawn, hint]
            simp
          rw [List.foldl_cons, hstep]
          refine ⟨fun h => ?_, fun e he => ?_⟩
          · obtain ⟨hbad, _⟩ := (ih _).1 h
            exact absurd hbad (by simp)
          · obtain ⟨hor, hmin, hle⟩ := (ih _).2 e he
            have hmine : e.1 ≤ dist := by
              have := hle (dist, t.entity, o + dist • d) rfl
              simpa using this
            refine ⟨?_, fun u hu hus d1 hd1 => ?_,
              fun a ha => absurd ha (by simp)⟩
            · rcases hor with h | ⟨u, hu, h⟩
              · rw [Option.some.injEq] at h
                exact Or.inr ⟨t, List.mem_cons_self _ _, hspawn, by rw [← h, hint],
                  by rw [← h], by rw [← h]⟩
              · exact Or.inr ⟨u, List.mem_cons_of_mem _ hu, h⟩
            · rcases List.mem_cons.1 hu with hu | hu
              · rw [hu, hint] at hd1
                rw [Option.some.injEq] at hd1
                rw [hd1] at hmine
                exact hmine
              · exact hmin u hu hus d1 hd1
        · -- occupied accumulator: keep the nearer of the two
          by_cases hlt : dist < best.1
          · have hstep : closestHitFold o d (some best) t =
                some (dist, t.entity, o + dist • d) := by
              simp only [closestHitFold, hspawn, hint]
              simp [if_pos hlt]
            rw [List.foldl_cons, hstep]
            refine ⟨fun h => ?_, fun e he => ?_⟩
            · obtain ⟨hbad, _⟩ := (ih _).1 h
              exact absurd hbad (by simp)
            · obtain ⟨hor, hmin, hle⟩ := (ih _).2 e he
              have hmine : e.1 ≤ dist := by
                have := hle (dist, t.entity, o + dist • d) rfl
                simpa using this
              refine ⟨?_, fun u hu hus d1 hd1 => ?_, fun a ha => ?_⟩
              · rcases hor with h | ⟨u, hu, h⟩
                · rw [Option.some.injEq] at h
                  exact Or.inr ⟨t, List.mem_cons_self _ _, hspawn, by rw [← h, hint],
                    by rw [← h], by rw [← h]⟩
                · exact Or.inr ⟨u, List.mem_cons_of_mem _ hu, h⟩
              · rcases List.mem_cons.1 hu with hu | hu
                · rw [hu, hint] at hd1
                  rw [Option.some.injEq] at hd1
                  rw [hd1] at hmine
                  exact hmine
                · exact hmin u hu hus d1 hd1
              · rw [Option.some.injEq] at ha
                rw [← ha]
                linarith
          · have hstep : closestHitFold o d (some best) t = some best := by
              simp only [closestHitFold, hspawn, hint]
              simp [if_neg hlt]
            rw [List.foldl_cons, hstep]
            refine ⟨fun h => ?_, fun e he => ?_⟩
            · obtain ⟨hbad, _⟩ := (ih _).1 h
              exact absurd hbad (by simp)
            · obtain ⟨hor, hmin, hle⟩ := (ih _).2 e he
              have hbeste : e.1 ≤ best.1 := hle best rfl
              push_neg at hlt
              refine ⟨?_, fun u hu hus d1 hd1 => ?_, fun a ha => ?_⟩
              · rcases hor with h | ⟨u, hu, h⟩
                · exact Or.inl h
                · exact Or.inr ⟨u, List.mem_cons_of_mem _ hu, h⟩
              · rcases List.mem_cons.1 hu with hu | hu
                · rw [hu, hint] at hd1
                  rw [Option.some.injEq] at hd1
                  rw [← hd1]
                  linarith
                · exact hmin u hu hus d1 hd1
              · rw [Option.some.injEq] at ha
                rw [← ha]
                exact hbeste

/-- C5: For every fire action and set of live targets,
`detect_target_hits` emits at most one `TargetHitEvent`; and when at
least one (spawn-finished) target's hitbox intersects the ray, it emits
exactly one event, for a target whose intersection distance along the
ray is minimal (and positive) among all intersecting candidates. -/
theorem C5_single_nearest_hit (pressed : Bool) (o d : Vec3 ℝ) (targets : List TargetEntry) :
    (detect_target_hits pressed o d targets).length ≤ 1 ∧
    (∀ t0 ∈ targets, t0.spawnFinished = true →
      ∀ d0, intersect_ray o d t0.translation t0.hitboxRadius = some d0 →
        ∃ ev tm dm, detect_target_hits true o d targets = [ev] ∧
          tm ∈ targets ∧ tm.spawnFinished = true ∧
          ev.target_entity = tm.entity ∧
          intersect_ray o d tm.translation tm.hitboxRadius = some dm ∧
          0 < dm ∧ ev.hit_position = o + dm • d ∧ ev.damage = 1 ∧
          (∀ t1 ∈ targets, t1.spawnFinished = true →
            ∀ d1, intersect_ray o d t1.translation t1.hitboxRadius = some d1 → dm ≤ d1)) := by
  constructor
  · unfold detect_target_hits
    split_ifs
    · simp
    · rcases targets.foldl (closestHitFold o d) none with _ | e
      · simp
      · simp
  · intro t0 ht0 hsp0 d0 hd0
    rcases hres : targets.foldl (closestHitFold o d) none with _ | e
    · obtain ⟨_, hnone⟩ := (closestHitFold_spec o d targets none).1 hres
      exact absurd ⟨hsp0, d0, hd0⟩ (hnone t0 ht0)
    · obtain ⟨hor, hmin, _⟩ := (closestHitFold_spec o d targets none).2 e hres
      rcases hor with h | ⟨tm, htm, hsp, hint, hent, hpos⟩
      · exact absurd h (by simp)
      · refine ⟨⟨e.2.1, e.2.2, 1⟩, tm, e.1, ?_, htm, hsp, hent, hint,
          intersect_ray_some_pos hint, hpos, rfl, fun t1 ht1 hs1 d1 hd1 => hmin t1 ht1 hs1 d1 hd1⟩
        unfold detect_target_hits
        rw [hres]
        simp

/-- Witness for C5: one spawn-finished target dead ahead produces
exactly one hit event. -/
theorem C5_single_nearest_hit_witness :
    (detect_target_hits true ⟨0, 0, 0⟩ ⟨0, 0, -1⟩
      [⟨7, ⟨0, 0, -5⟩, 1, true⟩] : List TargetHitEvent).length = 1 := by
  have hd : intersect_ray (⟨0, 0, 0⟩ : Vec3 ℝ) ⟨0, 0, -1⟩ ⟨0, 0, -5⟩ 1 = some 4 := by
    have hds : distance_sq (⟨0, 0, 0⟩ : Vec3 ℝ) ⟨0, 0, -1⟩ ⟨0, 0, -5⟩ = 0 := by
      norm_num [distance_sq, projection, lengthSq, dotV, Vec3.sub_def]
    have hproj : projection (⟨0, 0, 0⟩ : Vec3 ℝ) ⟨0, 0, -1⟩ ⟨0, 0, -5⟩ = 5 := by
      norm_num [projection, dotV, Vec3.sub_def]
    have hhc : half_chord (⟨0, 0, 0⟩ : Vec3 ℝ) ⟨0, 0, -1⟩ ⟨0, 0, -5⟩ 1 = 1 := by
      rw [half_chord, hds]
      norm_num
    rw [intersect_ray, hds, hproj, hhc]
    norm_num
  obtain ⟨ev, tm, dm, hev, _⟩ :=
    (C5_single_nearest_hit true ⟨0, 0, 0⟩ ⟨0, 0, -1⟩ [⟨7, ⟨0, 0, -5⟩, 1, true⟩]).2
      ⟨7, ⟨0, 0, -5⟩, 1, true⟩ (by simp) rfl 4 hd
  rw [hev]
  rfl

/-! Section: Score tracking (`src/target.rs`, `ScoreTracker` and its systems) -/

/-- The `TargetDestroyedEvent` from `src/target.rs`. -/
structure TargetDestroyedEvent where
  target_entity : ℕ
  points : ℤ
  destroyed_by_hit : Bool

/-- The `ScoreTracker` from `src/target.rs` (i32 counters, f32 accuracy
modelled exactly). -/
structure ScoreTracker where
  score : ℤ
  hits : ℤ
  misses : ℤ
  accuracy : ℚ
  shots_fired_this_frame : Bool
  hit_registered_this_frame : Bool
deriving DecidableEq

/-- The `ScoreTracker::default()` (all counters zero, flags clear). -/
def ScoreTracker.start : ScoreTracker := ⟨0, 0, 0, 0, false, false⟩

/-- The `reset_score_tracker_flags` (`src/target.rs` lines 249-252). -/
def reset_score_tracker_flags (s : ScoreTracker) : ScoreTracker :=
  { s with shots_fired_this_frame := false, hit_registered_this_frame := false }

/-- One iteration of the destroyed-events loop of
`update_score_tracker`: a hit-destroy adds its points to the score and
latches `hit_registered_this_frame`. -/
def processDestroyed (s : ScoreTracker) (ev : TargetDestroyedEvent) : ScoreTracker :=
  if ev.destroyed_by_hit then
    { s with score := s.score + ev.points, hit_registered_this_frame := true }
  else s

/-- The `if mouse_button_input.just_pressed(MouseButton::Left)` latch of
`update_score_tracker`. -/
def latchShot (s : ScoreTracker) (justPressed : Bool) : ScoreTracker :=
  if justPressed then { s with shots_fired_this_frame := true } else s

/-- The hit/miss count update of `update_score_tracker`. -/
def applyShot (s : ScoreTracker) : ScoreTracker :=
  if s.hit_registered_this_frame then { s with hits := s.hits + 1 }
  else { s with misses := s.misses + 1 }

/-- The accuracy recomputation of `update_score_tracker` (guarded by
`total_shots > 0`). -/
def recomputeAccuracy (s : ScoreTracker) : ScoreTracker :=
  if 0 < s.hits + s.misses then
    { s with accuracy := (s.hits : ℚ) / ((s.hits + s.misses : ℤ) : ℚ) * 100 }
  else s

/-- The `update_score_tracker` (`src/target.rs` lines 255-286): consume the
destroyed events, latch `shots_fired_this_frame` on a left-click press,
and if a shot was fired this frame count a hit or a miss and recompute
the accuracy. -/
def update_score_tracker (s : ScoreTracker) (events : List TargetDestroyedEvent)
    (justPressed : Bool) : ScoreTracker :=
  if (latchShot (events.foldl processDestroyed s) justPressed).shots_fired_this_frame then
    recomputeAccuracy (applyShot (latchShot (events.foldl processDestroyed s) justPressed))
  else latchShot (events.foldl processDestroyed s) justPressed

/-- One frame of the score systems: flags are reset before
`update_score_tracker` runs (the
`reset_score_tracker_flags.before(update_score_tracker)` schedule
constraint in `TargetPlugin`). -/
def scoreFrame (s : ScoreTracker) (events : List TargetDestroyedEvent)
    (justPressed : Bool) : ScoreTracker :=
  update_score_tracker (reset_score_tracker_flags s) events justPressed

/-- A run of score frames, each carrying that frame's destroyed events
and fire-button edge. -/
def runFrames (frames : List (List TargetDestroyedEvent × Bool)) : ScoreTracker :=
  frames.foldl (fun s f => scoreFrame s f.1 f.2) ScoreTracker.start

/-- The accuracy invariant of `ScoreTracker`. -/
def ScoreInv (s : ScoreTracker) : Prop :=
  0 ≤ s.hits ∧ 0 ≤ s.misses ∧
  (0 < s.hits + s.misses →
    s.accuracy = (s.hits : ℚ) / ((s.hits + s.misses : ℤ) : ℚ) * 100) ∧
  (s.hits + s.misses = 0 → s.accuracy = 0)

theorem foldDestroyed_spec (events : List TargetDestroyedEvent) :
    ∀ s : ScoreTracker,
      events.foldl processDestroyed s =
        { s with
          score := (events.foldl processDestroyed s).score,
          hit_registered_this_frame :=
            s.hit_registered_this_frame || events.any fun ev => ev.destroyed_by_hit } := by
  induction events with
  | nil => intro s; simp
  | cons ev tl ih =>
    intro s
    simp only [List.foldl_cons, List.any_cons]
    rcases hdb : ev.destroyed_by_hit with _ | _
    · have hps : processDestroyed s ev = s := by simp [processDestroyed, hdb]
      rw [hps, ih s]
      simp [hdb]
    · have hps : processDestroyed s ev =
          { s with score := s.score + ev.points, hit_registered_this_frame := true } := by
        simp [processDestroyed, hdb]
      rw [hps, ih]
      simp [hdb]

theorem scoreFrame_eq (s : ScoreTracker) (events : List TargetDestroyedEvent)
    (pressed : Bool) :
    scoreFrame s events pressed =
      (if pressed then
        recomputeAccuracy (applyShot
          { s with
            score := (events.foldl processDestroyed (reset_score_tracker_flags s)).score,
            shots_fired_this_frame := true,
            hit_registered_this_frame := events.any fun ev => ev.destroyed_by_hit })
      else
        { s with
          score := (events.foldl processDestroyed (reset_score_tracker_flags s)).score,
          shots_fired_this_frame := false,
          hit_registered_this_frame := events.any fun ev => ev.destroyed_by_hit }) := by
  rcases pressed with _ | _
  · simp only [Bool.false_eq_true, if_false]
    unfold scoreFrame update_score_tracker
    rw [foldDestroyed_spec events (reset_score_tracker_flags s)]
    simp [latchShot, reset_score_tracker_flags]
  · simp only [if_true]
    unfold scoreFrame update_score_tracker
    rw [foldDestroyed_spec events (reset_score_tracker_flags s)]
    simp [latchShot, reset_score_tracker_flags]

theorem scoreFrame_step (s : ScoreTracker) (events : List TargetDestroyedEvent)
    (pressed : Bool) (hinv : ScoreInv s) :
    ScoreInv (scoreFrame s events pressed) ∧
    (pressed = true → (events.any fun ev => ev.destroyed_by_hit) = true →
      (scoreFrame s events pressed).hits = s.hits + 1 ∧
      (scoreFrame s events pressed).misses = s.misses) ∧
    (pressed = true → (events.any fun ev => ev.destroyed_by_hit) = false →
      (scoreFrame s events pressed).misses = s.misses + 1 ∧
      (scoreFrame s events pressed).hits = s.hits) ∧
    (pressed = false →
      (scoreFrame s events pressed).hits = s.hits ∧
      (scoreFrame s events pressed).misses = s.misses) := by
  obtain ⟨hh, hm, hacc, hacc0⟩ := hinv
  rcases pressed with _ | _
  · have hres : scoreFrame s events false =
        { s with
          score := (events.foldl processDestroyed (reset_score_tracker_flags s)).score,
          shots_fired_this_frame := false,
          hit_registered_this_frame := events.any fun ev => ev.destroyed_by_hit } := by
      rw [scoreFrame_eq]
      simp
    rw [hres]
    exact ⟨⟨hh, hm, hacc, hacc0⟩, fun h => Bool.noConfusion h, fun h => Bool.noConfusion h,
      fun _ => ⟨rfl, rfl⟩⟩
  · have hres : scoreFrame s events true =
        recomputeAccuracy (applyShot
          { s with
            score := (events.foldl processDestroyed (reset_score_tracker_flags s)).score,
            shots_fired_this_frame := true,
            hit_registered_this_frame := events.any fun ev => ev.destroyed_by_hit }) := by
      rw [scoreFrame_eq]
      simp
    rw [hres]
    rcases hany : (events.any fun ev => ev.destroyed_by_hit) with _ | _
    · have happ : applyShot
          { s with
            score := (events.foldl processDestroyed (reset_score_tracker_flags s)).score,
            shots_fired_this_frame := true,
            hit_registered_this_frame := false } =
          { s with
            score := (events.foldl processDestroyed (reset_score_tracker_flags s)).score,
            misses := s.misses + 1,
            shots_fired_this_frame := true,
            hit_registered_this_frame := false } := by
        simp [applyShot]
      rw [happ]
      have hpos : (0:ℤ) < s.hits + (s.misses + 1) := by linarith
      have hrec : recomputeAccuracy
          { s with
            score := (events.foldl processDestroyed (reset_score_tracker_flags s)).score,
            misses := s.misses + 1,
            shots_fired_this_frame := true,
            hit_registered_this_frame := false } =
          { s with
            score := (events.foldl processDestroyed (reset_score_tracker_flags s)).score,
            misses := s.misses + 1,
            accuracy := (s.hits : ℚ) / ((s.hits + (s.misses + 1) : ℤ) : ℚ) * 100,
            shots_fired_this_frame := true,
            hit_registered_this_frame := false } := by
        simp only [recomputeAccuracy]
        rw [if_pos hpos]
      rw [hrec]
      refine ⟨⟨hh, by show (0:ℤ) ≤ s.misses + 1; linarith, fun _ => rfl, fun h => ?_⟩,
        fun _ h => Bool.noConfusion h, fun _ _ => ⟨rfl, rfl⟩, fun h => Bool.noConfusion h⟩
      exfalso
      have h2 : s.hits + (s.misses + 1) = 0 := h
      linarith
    · have happ : applyShot
          { s with
            score := (events.foldl processDestroyed (reset_score_tracker_flags s)).score,
            shots_fired_this_frame := true,
            hit_registered_this_frame := true } =
          { s with
            score := (events.foldl processDestroyed (reset_score_tracker_flags s)).score,
            hits := s.hits + 1,
            shots_fired_this_frame := true,
            hit_registered_this_frame := true } := by
        simp [applyShot]
      rw [happ]
      have hpos : (0:ℤ) < s.hits + 1 + s.misses := by linarith
      have hrec : recomputeAccuracy
          { s with
            score := (events.foldl processDestroyed (reset_score_tracker_flags s)).score,
            hits := s.hits + 1,
            shots_fired_this_frame := true,
            hit_registered_this_frame := true } =
          { s with
            score := (events.foldl processDestroyed (reset_score_tracker_flags s)).score,
            hits := s.hits + 1,
            accuracy := ((s.hits + 1 : ℤ) : ℚ) / ((s.hits + 1 + s.misses : ℤ) : ℚ) * 100,
            shots_fired_this_frame := true,
            hit_registered_this_frame := true } := by
        simp only [recomputeAccuracy]
        rw [if_pos hpos]
      rw [hrec]
      refine ⟨⟨by show (0:ℤ) ≤ s.hits + 1; linarith, hm, fun _ => rfl, fun h => ?_⟩,
        fun _ _ => ⟨rfl, rfl⟩, fun _ h => Bool.noConfusion h, fun h => Bool.noConfusion h⟩
      exfalso
      have h2 : s.hits + 1 + s.misses = 0 := h
      linarith

/-- C6: The `ScoreTracker` invariant: `accuracy` is exactly
`hits / (hits + misses) * 100` whenever `hits + misses > 0` and zero
before any shot; it holds initially, is preserved by every frame, and
holds after any run of frames; moreover a frame with a fire press
increments `hits` by exactly 1 when a hit-destroy event was processed
that frame and otherwise increments `misses` by exactly 1, while a
frame without a press changes neither counter. -/
theorem C6_score_tracker_accuracy :
    ScoreInv ScoreTracker.start ∧
    (∀ (s : ScoreTracker) (events : List TargetDestroyedEvent) (pressed : Bool),
      ScoreInv s →
        ScoreInv (scoreFrame s events pressed) ∧
        (pressed = true → (events.any fun ev => ev.destroyed_by_hit) = true →
          (scoreFrame s events pressed).hits = s.hits + 1 ∧
          (scoreFrame s events pressed).misses = s.misses) ∧
        (pressed = true → (events.any fun ev => ev.destroyed_by_hit) = false →
          (scoreFrame s events pressed).misses = s.misses + 1 ∧
          (scoreFrame s events pressed).hits = s.hits) ∧
        (pressed = false →
          (scoreFrame s events pressed).hits = s.hits ∧
          (scoreFrame s events pressed).misses = s.misses)) ∧
    (∀ frames : List (List TargetDestroyedEvent × Bool), ScoreInv (runFrames frames)) := by
  have hstart : ScoreInv ScoreTracker.start :=
    ⟨le_rfl, le_rfl, fun h => absurd h (by norm_num [ScoreTracker.start]), fun _ => rfl⟩
  refine ⟨hstart, fun s events pressed hinv => scoreFrame_step s events pressed hinv, ?_⟩
  intro frames
  have : ∀ (fs : List (List TargetDestroyedEvent × Bool)) (s : ScoreTracker), ScoreInv s →
      ScoreInv (fs.foldl (fun s f => scoreFrame s f.1 f.2) s) := by
    intro fs
    induction fs with
    | nil => exact fun s hs => hs
    | cons f tl ih =>
      intro s hs
      exact ih _ (scoreFrame_step s f.1 f.2 hs).1
  exact this frames ScoreTracker.start hstart

/-- Witness for C6: a miss, then a hit, then a miss from the initial
tracker yield `hits = 1`, `misses = 2` — computed by applying the frame
theorem three times. -/
theorem C6_score_tracker_accuracy_witness :
    (runFrames [([], true), ([⟨1, 100, true⟩], true), ([], true)]).hits = 1 ∧
    (runFrames [([], true), ([⟨1, 100, true⟩], true), ([], true)]).misses = 2 := by
  have h0 := C6_score_tracker_accuracy.1
  have h1 := C6_score_tracker_accuracy.2.1 ScoreTracker.start [] true h0
  have h2 := C6_score_tracker_accuracy.2.1 (scoreFrame ScoreTracker.start [] true)
    [⟨1, 100, true⟩] true h1.1
  have h3 := C6_score_tracker_accuracy.2.1
    (scoreFrame (scoreFrame ScoreTracker.start [] true) [⟨1, 100, true⟩] true) [] true
    (h2.1)
  have e1 := h1.2.2.1 rfl rfl
  have e2 := h2.2.1 rfl rfl
  have e3 := h3.2.2.1 rfl rfl
  have hrun : runFrames [([], true), ([⟨1, 100, true⟩], true), ([], true)] =
      scoreFrame (scoreFrame (scoreFrame ScoreTracker.start [] true)
        [⟨1, 100, true⟩] true) [] true := rfl
  rw [hrun]
  constructor
  · rw [e3.2, e2.1, e1.2]
    norm_num [ScoreTracker.start]
  · rw [e3.1, e2.2, e1.1]
    norm_num [ScoreTracker.start]

/-! Section: Scenario sequencer (`src/main.rs`, `ScenarioState` / `manage_scenarios`) -/

/-- The `ScenarioType` from `src/main.rs`. -/
inductive ScenarioType
  | DynamicClicking | StaticClicking | LinearClicking
  | PreciseTracking | ReactiveTracking | ControlTracking
  | SpeedSwitching | EvasiveSwitching | StabilitySwitching
deriving DecidableEq

/-- A Bevy once-mode `Timer`: a duration and the accumulated elapsed
time (f32 seconds modelled exactly as rationals). -/
structure GameTimer where
  duration : ℚ
  elapsed : ℚ
deriving DecidableEq

/-- The `Timer::tick(delta)` for a once-mode timer: advance `elapsed`
(saturating at `duration`) and report `just_finished()` — the timer
reached its duration during this very tick. -/
def GameTimer.tick (t : GameTimer) (d : ℚ) : GameTimer × Bool :=
  (⟨t.duration, min (t.elapsed + d) t.duration⟩,
   decide (t.elapsed < t.duration) && decide (t.duration ≤ t.elapsed + d))

/-- The `Timer::reset()`. -/
def GameTimer.reset (t : GameTimer) : GameTimer := ⟨t.duration, 0⟩

/-- The `SCENARIO_DURATION` (`src/main.rs` line 27). -/
def SCENARIO_DURATION : ℚ := 30

/-- The `SCENARIO_DELAY` (`src/main.rs` line 28). -/
def SCENARIO_DELAY : ℚ := 5

/-- The `ScenarioState` from `src/main.rs` (lines 52-61). -/
structure ScenarioState where
  current_type : Option ScenarioType
  scenario_timer : GameTimer
  delay_timer : GameTimer
  current_index : ℕ
  is_active : Bool
  has_started : Bool
  scenarios : List ScenarioType
deriving DecidableEq

/-- The `ScenarioState::default()` (lines 63-85): idle, both timers fresh,
and the fixed ordered list of nine scenarios. -/
def ScenarioState.init : ScenarioState :=
  { current_type := none,
    scenario_timer := ⟨SCENARIO_DURATION, 0⟩,
    delay_timer := ⟨SCENARIO_DELAY, 0⟩,
    current_index := 0,
    is_active := false,
    has_started := false,
    scenarios := [.DynamicClicking, .StaticClicking, .LinearClicking,
      .PreciseTracking, .ReactiveTracking, .ControlTracking,
      .SpeedSwitching, .EvasiveSwitching, .StabilitySwitching] }

/-- The Space-press block of `manage_scenarios` (lines 499-512): start
the sequence if not already started. -/
def startCheck (s : ScenarioState) (space : Bool) : ScenarioState :=
  if space && !s.has_started then
    { s with has_started := true, current_index := 0, is_active := false,
             delay_timer := s.delay_timer.reset }
  else s

/-- The delay branch of `manage_scenarios` (lines 520-541): tick the
delay timer; on `just_finished`, start the scenario at `current_index`
if the index is in range (the source's `current_index <
scenarios.len()` guard before indexing, rendered as `get?`), else
report completion (`has_started = false`, no current scenario). -/
def stepDelay (s : ScenarioState) (d : ℚ) : ScenarioState :=
  if (s.delay_timer.tick d).2 then
    match s.scenarios.get? s.current_index with
    | some ty =>
      { s with delay_timer := (s.delay_timer.tick d).1, current_type := some ty,
               is_active := true, scenario_timer := s.scenario_timer.reset }
    | none =>
      { s with delay_timer := (s.delay_timer.tick d).1, has_started := false,
               current_type := none }
  else { s with delay_timer := (s.delay_timer.tick d).1 }

/-- The active branch of `manage_scenarios` (lines 542-565): tick the
scenario timer; on `just_finished`, end the scenario, advance the
index and reset the delay timer. -/
def stepActive (s : ScenarioState) (d : ℚ) : ScenarioState :=
  if (s.scenario_timer.tick d).2 then
    { s with scenario_timer := (s.scenario_timer.tick d).1, is_active := false,
             current_index := s.current_index + 1, delay_timer := s.delay_timer.reset }
  else { s with scenario_timer := (s.scenario_timer.tick d).1 }

/-- The post-start body of `manage_scenarios`: do nothing when not
started (lines 515-517), else run the delay or the active branch. -/
def stepStarted (s : ScenarioState) (d : ℚ) : ScenarioState :=
  if !s.has_started then s
  else if !s.is_active then stepDelay s d
  else stepActive s d

/-- One frame of `manage_scenarios` (`src/main.rs` lines 493-566), fed
this frame's Space-press edge and delta time. -/
def manage_scenarios (s : ScenarioState) (space : Bool) (d : ℚ) : ScenarioState :=
  stepStarted (startCheck s space) d

/-- A run of frames with no further Space presses. -/
def runScenarios (s : ScenarioState) (ds : List ℚ) : ScenarioState :=
  ds.foldl (fun s d => manage_scenarios s false d) s

/-- Number of frames of the run at which a scenario becomes active
(`is_active` flips from `false` to `true`). -/
def actCount : ScenarioState → List ℚ → ℕ
  | _, [] => 0
  | s, d :: ds =>
    (if !s.is_active && (manage_scenarios s false d).is_active then 1 else 0) +
      actCount (manage_scenarios s false d) ds

/-- The sequencer invariant: the index never exceeds the scenario list
length, a running scenario's index is strictly in range, and an idle
sequencer has no active scenario and no current type. -/
def ScenInv (s : ScenarioState) : Prop :=
  s.current_index ≤ s.scenarios.length ∧
  (s.is_active = true → s.current_index < s.scenarios.length) ∧
  (s.has_started = false → s.is_active = false ∧ s.current_type = none)

/-- Completed scenario phases, counting a currently active one. -/
def phaseMeasure (s : ScenarioState) : ℕ :=
  s.current_index + (if s.is_active then 1 else 0)

theorem startCheck_false (s : ScenarioState) : startCheck s false = s := by
  simp [startCheck]

theorem frozen_step {s : ScenarioState} (h : s.has_started = false) (d : ℚ) :
    manage_scenarios s false d = s := by
  simp [manage_scenarios, startCheck, stepStarted, h]

theorem frozen_run (ds : List ℚ) : ∀ s : ScenarioState, s.has_started = false →
    runScenarios s ds = s := by
  induction ds with
  | nil => exact fun s _ => rfl
  | cons d tl ih =>
    intro s h
    show runScenarios (manage_scenarios s false d) tl = s
    rw [frozen_step h]
    exact ih s h

theorem frozen_act (ds : List ℚ) : ∀ s : ScenarioState, s.has_started = false →
    actCount s ds = 0 := by
  induction ds with
  | nil => exact fun s _ => rfl
  | cons d tl ih =>
    intro s h
    show (if !s.is_active && (manage_scenarios s false d).is_active then 1 else 0) +
      actCount (manage_scenarios s false d) tl = 0
    rw [frozen_step h, ih s h]
    simp

theorem startCheck_scenarios (s : ScenarioState) (space : Bool) :
    (startCheck s space).scenarios = s.scenarios := by
  unfold startCheck
  split_ifs <;> rfl

theorem stepDelay_scenarios (s : ScenarioState) (d : ℚ) :
    (stepDelay s d).scenarios = s.scenarios := by
  unfold stepDelay
  split_ifs
  · rcases hget : s.scenarios.get? s.current_index with _ | ty <;> simp [hget]
  · rfl

theorem stepActive_scenarios (s : ScenarioState) (d : ℚ) :
    (stepActive s d).scenarios = s.scenarios := by
  unfold stepActive
  split_ifs <;> rfl

theorem stepStarted_scenarios (s : ScenarioState) (d : ℚ) :
    (stepStarted s d).scenarios = s.scenarios := by
  unfold stepStarted
  split_ifs
  · rfl
  · exact stepDelay_scenarios s d
  · exact stepActive_scenarios s d

theorem step_scenarios (s : ScenarioState) (space : Bool) (d : ℚ) :
    (manage_scenarios s space d).scenarios = s.scenarios := by
  unfold manage_scenarios
  rw [stepStarted_scenarios, startCheck_scenarios]

theorem run_scenarios_list (ds : List ℚ) : ∀ s : ScenarioState,
    (runScenarios s ds).scenarios = s.scenarios := by
  induction ds with
  | nil => exact fun _ => rfl
  | cons d tl ih =>
    intro s
    show (runScenarios (manage_scenarios s false d) tl).scenarios = s.scenarios
    rw [ih, step_scenarios]

theorem scenInv_init : ScenInv ScenarioState.init :=
  ⟨Nat.zero_le _, fun hc => Bool.noConfusion hc, fun _ => ⟨rfl, rfl⟩⟩

theorem startCheck_inv {s : ScenarioState} (h : ScenInv s) (space : Bool) :
    ScenInv (startCheck s space) := by
  unfold startCheck
  split_ifs with hsp
  · exact ⟨Nat.zero_le _, fun hc => Bool.noConfusion hc, fun hc => Bool.noConfusion hc⟩
  · exact h

theorem stepDelay_inv {s : ScenarioState} (h : ScenInv s) (hst : s.has_started = true)
    (hact : s.is_active = false) (d : ℚ) : ScenInv (stepDelay s d) := by
  unfold stepDelay
  split_ifs with ht
  · rcases hget : s.scenarios.get? s.current_index with _ | ty
    · simp only [hget]
      refine ⟨h.1, fun hc => ?_, fun _ => ⟨hact, rfl⟩⟩
      rw [hact] at hc
      exact Bool.noConfusion hc
    · simp only [hget]
      have hlt : s.current_index < s.scenarios.length := by
        rcases List.get?_eq_some.1 hget with ⟨hl, _⟩
        exact hl
      refine ⟨h.1, fun _ => hlt, fun hc => ?_⟩
      rw [hst] at hc
      exact Bool.noConfusion hc
  · exact h

theorem stepActive_inv {s : ScenarioState} (h : ScenInv s) (hst : s.has_started = true)
    (hact : s.is_active = true) (d : ℚ) : ScenInv (stepActive s d) := by
  unfold stepActive
  split_ifs with ht
  · refine ⟨Nat.succ_le_of_lt (h.2.1 hact), fun hc => Bool.noConfusion hc, fun hc => ?_⟩
    rw [hst] at hc
    exact Bool.noConfusion hc
  · exact h

theorem stepStarted_inv {s : ScenarioState} (h : ScenInv s) (d : ℚ) :
    ScenInv (stepStarted s d) := by
  unfold stepStarted
  split_ifs with h1 h2
  · exact h
  · simp only [Bool.not_eq_true', Bool.not_eq_eq_eq_not] at h1 h2
    exact stepDelay_inv h (by simpa using h1) (by simpa using h2) d
  · simp only [Bool.not_eq_true', Bool.not_eq_eq_eq_not] at h1 h2
    exact stepActive_inv h (by simpa using h1) (by simpa using h2) d

theorem scenInv_step {s : ScenarioState} (h : ScenInv s) (space : Bool) (d : ℚ) :
    ScenInv (manage_scenarios s space d) :=
  stepStarted_inv (startCheck_inv h space) d

theorem run_inv (ds : List ℚ) : ∀ s : ScenarioState, ScenInv s →
    ScenInv (runScenarios s ds) := by
  induction ds with
  | nil => exact fun _ h => h
  | cons d tl ih =>
    intro s h
    exact ih _ (scenInv_step h false d)

theorem measure_step {s : ScenarioState} (d : ℚ) (hst : s.has_started = true)
    (hinv : ScenInv s) :
    ((manage_scenarios s false d).has_started = true →
      phaseMeasure (manage_scenarios s false d) =
        phaseMeasure s +
          (if !s.is_active && (manage_scenarios s false d).is_active then 1 else 0)) ∧
    ((manage_scenarios s false d).has_started = false →
      phaseMeasure s = s.scenarios.length ∧
      (manage_scenarios s false d).current_index = s.scenarios.length ∧
      (manage_scenarios s false d).is_active = false ∧
      (manage_scenarios s false d).current_type = none ∧
      (!s.is_active && (manage_scenarios s false d).is_active) = false) := by
  have hm : manage_scenarios s false d = stepStarted s d := by
    rw [manage_scenarios, startCheck_false]
  rw [hm]
  unfold stepStarted
  rw [hst]
  simp only [Bool.not_true, Bool.false_eq_true, if_false]
  rcases hact : s.is_active with _ | _
  · -- delay branch
    simp only [Bool.not_false, if_true]
    unfold stepDelay
    rcases htick : (s.delay_timer.tick d).2 with _ | _
    · simp only [Bool.false_eq_true, if_false]
      constructor
      · intro _
        simp [phaseMeasure, hact]
      · intro hcontra
        simp only [hst] at hcontra
        exact Bool.noConfusion hcontra
    · simp only [if_true]
      rcases hget : s.scenarios.get? s.current_index with _ | ty
      · simp only [hget]
        constructor
        · intro hcontra
          exact Bool.noConfusion hcontra
        · intro _
          have hlen : s.scenarios.length ≤ s.current_index := List.get?_eq_none.1 hget
          have heq : s.current_index = s.scenarios.length := le_antisymm hinv.1 hlen
          refine ⟨?_, heq, hact, ?_, ?_⟩
          · simp [phaseMeasure, hact, heq]
          · trivial
          · simp [hact]
      · simp only [hget]
        constructor
        · intro _
          simp [phaseMeasure, hact]
        · intro hcontra
          simp only [hst] at hcontra
          exact Bool.noConfusion hcontra
  · -- active branch
    simp only [Bool.not_true, Bool.false_eq_true, if_false]
    unfold stepActive
    rcases htick : (s.scenario_timer.tick d).2 with _ | _
    · simp only [Bool.false_eq_true, if_false]
      constructor
      · intro _
        simp [phaseMeasure, hact]
      · intro hcontra
        simp only [hst] at hcontra
        exact Bool.noConfusion hcontra
    · simp only [if_true]
      constructor
      · intro _
        simp [phaseMeasure, hact]
      · intro hcontra
        simp only [hst] at hcontra
        exact Bool.noConfusion hcontra

theorem run_act (ds : List ℚ) : ∀ s : ScenarioState, s.has_started = true → ScenInv s →
    ((runScenarios s ds).has_started = true →
      actCount s ds + phaseMeasure s = phaseMeasure (runScenarios s ds)) ∧
    ((runScenarios s ds).has_started = false →
      actCount s ds + phaseMeasure s = s.scenarios.length ∧
      (runScenarios s ds).current_index = s.scenarios.length ∧
      (runScenarios s ds).is_active = false ∧
      (runScenarios s ds).current_type = none) := by
  induction ds with
  | nil =>
    intro s hst _
    refine ⟨fun _ => by simp [runScenarios, actCount], fun hc => ?_⟩
    rw [show runScenarios s [] = s from rfl, hst] at hc
    exact Bool.noConfusion hc
  | cons d tl ih =>
    intro s hst hinv
    have hrun : runScenarios s (d :: tl) = runScenarios (manage_scenarios s false d) tl := rfl
    have hactc : actCount s (d :: tl) =
        (if !s.is_active && (manage_scenarios s false d).is_active then 1 else 0) +
          actCount (manage_scenarios s false d) tl := rfl
    have hinv2 : ScenInv (manage_scenarios s false d) := scenInv_step hinv false d
    have hms := measure_step d hst hinv
    have hlen2 : (manage_scenarios s false d).scenarios.length = s.scenarios.length := by
      rw [step_scenarios]
    rcases hstart2 : (manage_scenarios s false d).has_started with _ | _
    · -- the sequencer completed during this frame
      obtain ⟨hmefull, hidx2, hact2, htype2, hind0⟩ := hms.2 hstart2
      have hfr : runScenarios (manage_scenarios s false d) tl =
          manage_scenarios s false d := frozen_run tl _ hstart2
      have hfa : actCount (manage_scenarios s false d) tl = 0 := frozen_act tl _ hstart2
      rw [hrun, hfr]
      constructor
      · intro hc
        rw [hstart2] at hc
        exact Bool.noConfusion hc
      · intro _
        rw [hactc, hfa, hind0]
        exact ⟨by simpa using hmefull, hidx2, hact2, htype2⟩
    · -- still running after this frame
      have hme := hms.1 hstart2
      obtain ⟨ihA, ihB⟩ := ih (manage_scenarios s false d) hstart2 hinv2
      rw [hrun, hactc]
      constructor
      · intro hc
        have h1 := ihA hc
        omega
      · intro hc
        obtain ⟨hsum, hidx, hactv, htyp⟩ := ihB hc
        rw [hlen2] at hsum hidx
        exact ⟨by omega, hidx, hactv, htyp⟩

theorem start_press_char (d0 : ℚ) :
    (manage_scenarios ScenarioState.init true d0).has_started = true ∧
    (manage_scenarios ScenarioState.init true d0).current_index = 0 := by
  unfold manage_scenarios startCheck stepStarted stepDelay
  simp [ScenarioState.init]
  split_ifs <;> simp_all

/-- C7: After a Space press from the idle initial state, along any
schedule of frame deltas with no further presses: every reachable
state's `current_index` stays in `[0, 9]` (9 = `scenarios.len()`), a
state with an active scenario has `current_index < 9`; and if the run
reaches the completed state (`has_started = false`) then exactly 9
scenario activations occurred (each necessarily entered from a
non-active delay phase), and the final state is idle with
`current_type = None` and `current_index = 9` — the index reaches 9
only at completion, since any active state has index below 9. -/
theorem C7_scenario_sequencer_phases (d0 : ℚ) (ds : List ℚ) :
    (∀ n : ℕ,
      (runScenarios (manage_scenarios ScenarioState.init true d0) (ds.take n)).current_index ≤ 9 ∧
      ((runScenarios (manage_scenarios ScenarioState.init true d0) (ds.take n)).is_active = true →
        (runScenarios (manage_scenarios ScenarioState.init true d0) (ds.take n)).current_index < 9)) ∧
    ((runScenarios (manage_scenarios ScenarioState.init true d0) ds).has_started = false →
      (if (manage_scenarios ScenarioState.init true d0).is_active then 1 else 0) +
        actCount (manage_scenarios ScenarioState.init true d0) ds = 9 ∧
      (runScenarios (manage_scenarios ScenarioState.init true d0) ds).current_index = 9 ∧
      (runScenarios (manage_scenarios ScenarioState.init true d0) ds).is_active = false ∧
      (runScenarios (manage_scenarios ScenarioState.init true d0) ds).current_type = none) := by
  have hstart := start_press_char d0
  have hinv0 : ScenInv (manage_scenarios ScenarioState.init true d0) :=
    scenInv_step scenInv_init true d0
  have hscen : (manage_scenarios ScenarioState.init true d0).scenarios =
      ScenarioState.init.scenarios := step_scenarios _ _ _
  constructor
  · intro n
    have hinvn := run_inv (ds.take n) _ hinv0
    have hlist : (runScenarios (manage_scenarios ScenarioState.init true d0)
        (ds.take n)).scenarios.length = 9 := by
      rw [run_scenarios_list, hscen]
      rfl
    exact ⟨by rw [← hlist]; exact hinvn.1, fun ha => by rw [← hlist]; exact hinvn.2.1 ha⟩
  · intro hdone
    have hra := (run_act ds _ hstart.1 hinv0).2 hdone
    have hm0 : phaseMeasure (manage_scenarios ScenarioState.init true d0) =
        (if (manage_scenarios ScenarioState.init true d0).is_active then 1 else 0) := by
      rw [phaseMeasure, hstart.2]
      simp
    have hlen : (manage_scenarios ScenarioState.init true d0).scenarios.length = 9 := by
      rw [hscen]
      rfl
    obtain ⟨hsum, hidx, hact, htyp⟩ := hra
    rw [hlen] at hsum hidx
    rw [hm0] at hsum
    exact ⟨by omega, hidx, hact, htyp⟩

/-- A simulated clock that starts with a 5-second first frame (the
Space-press frame) and then alternates 30-second active phases and
5-second delays, nine times over. -/
def nineCycleSchedule : List ℚ :=
  [30, 5, 30, 5, 30, 5, 30, 5, 30, 5, 30, 5, 30, 5, 30, 5, 30, 5]

/-- Witness for C7: on the nine-cycle schedule the run completes with
exactly 9 activations. -/
theorem C7_scenario_sequencer_phases_witness :
    (if (manage_scenarios ScenarioState.init true 5).is_active then 1 else 0) +
      actCount (manage_scenarios ScenarioState.init true 5) nineCycleSchedule = 9 := by
  have hdone : (runScenarios (manage_scenarios ScenarioState.init true 5)
      nineCycleSchedule).has_started = false := by
    norm_num [runScenarios, nineCycleSchedule, manage_scenarios, startCheck, stepStarted,
      stepDelay, stepActive, GameTimer.tick, GameTimer.reset, ScenarioState.init,
      SCENARIO_DELAY, SCENARIO_DURATION]
  exact ((C7_scenario_sequencer_phases 5 nineCycleSchedule).2 hdone).1

/-- A simulated clock totalling exactly 315 seconds after the start
press: the 5-second press frame, then eight full 30+5 cycles, then the
ninth 30-second scenario. -/
def schedule315 : List ℚ :=
  [30, 5, 30, 5, 30, 5, 30, 5, 30, 5, 30, 5, 30, 5, 30, 5, 30]

/-- C8 counterexample: 315 seconds of simulated time after the
start action (first delay of 5 s, then nine 30-second scenarios with
5-second delays between them), the sequencer has *not* yet reported
"All scenarios completed": `has_started` is still true, because a
trailing 5-second delay must elapse after the ninth scenario before the
completion branch runs. -/
theorem C8_total_time_counterexample :
    (5 : ℚ) + schedule315.sum = 315 ∧
    (runScenarios (manage_scenarios ScenarioState.init true 5) schedule315).has_started
      = true := by
  constructor
  · norm_num [schedule315]
  · norm_num [runScenarios, schedule315, manage_scenarios, startCheck, stepStarted,
      stepDelay, stepActive, GameTimer.tick, GameTimer.reset, ScenarioState.init,
      SCENARIO_DELAY, SCENARIO_DURATION]

/-- C8 amended: With `SCENARIO_DURATION = 30`, `SCENARIO_DELAY
= 5` and the fixed list of 9 scenarios, the first delay precedes the
first scenario, and the total simulated time from the start action
until the sequencer reports "All scenarios completed" is
`9*30 + 10*5 = 320` seconds: at 315 seconds the run is still going,
and after one more 5-second delay it is complete and idle. -/
theorem C8_total_time_amended :
    (5 : ℚ) + (schedule315 ++ [5]).sum = 9 * 30 + 10 * 5 ∧
    (manage_scenarios ScenarioState.init true 4).is_active = false ∧
    (manage_scenarios ScenarioState.init true 5).is_active = true ∧
    (runScenarios (manage_scenarios ScenarioState.init true 5) schedule315).has_started
      = true ∧
    (runScenarios (manage_scenarios ScenarioState.init true 5)
      (schedule315 ++ [5])).has_started = false ∧
    (runScenarios (manage_scenarios ScenarioState.init true 5)
      (schedule315 ++ [5])).current_type = none := by
  refine ⟨by norm_num [schedule315], ?_, ?_, ?_, ?_, ?_⟩ <;>
    norm_num [runScenarios, schedule315, manage_scenarios, startCheck, stepStarted,
      stepDelay, stepActive, GameTimer.tick, GameTimer.reset, ScenarioState.init,
      SCENARIO_DELAY, SCENARIO_DURATION]

/-! Section: Target movement (`src/target.rs`, `update_target_movement`) -/

/-- The `TargetMovement` from `src/target.rs` (lines 101-110): static, or
linear with a velocity and optional axis-aligned min/max bounds. -/
inductive TargetMovement (α : Type)
  | Static : TargetMovement α
  | Linear (velocity : Vec3 α) (bounds : Option (Vec3 α × Vec3 α)) : TargetMovement α

/-- The body of the `for i in 0..3` loop of `update_target_movement`
for one axis, applied to the already-integrated coordinate:
if the coordinate exceeded the bound *and* the velocity points further
out, negate that axis's velocity and clamp the coordinate. -/
def bounceAxis {α : Type} [LinearOrderedRing α] (p v mn mx : α) : α × α :=
  if (p < mn ∧ v < 0) ∨ (mx < p ∧ 0 < v) then (clampVal p mn mx, -v)
  else (p, v)

/-- The `update_target_movement` (`src/target.rs` lines 119-144) for one
target: integrate `translation += velocity * delta`, then run the
axis-wise bounce against the optional bounds. Returns the new
translation and the (possibly velocity-reversed) movement. -/
def update_target_movement {α : Type} [LinearOrderedRing α] (dt : α) (pos : Vec3 α) :
    TargetMovement α → Vec3 α × TargetMovement α
  | .Static => (pos, .Static)
  | .Linear v none => (pos + dt • v, .Linear v none)
  | .Linear v (some (mn, mx)) =>
    (⟨(bounceAxis (pos + dt • v).x v.x mn.x mx.x).1,
      (bounceAxis (pos + dt • v).y v.y mn.y mx.y).1,
      (bounceAxis (pos + dt • v).z v.z mn.z mx.z).1⟩,
     .Linear
      ⟨(bounceAxis (pos + dt • v).x v.x mn.x mx.x).2,
       (bounceAxis (pos + dt • v).y v.y mn.y mx.y).2,
       (bounceAxis (pos + dt • v).z v.z mn.z mx.z).2⟩
      (some (mn, mx)))

/-- A run of movement frames (`steps` is the list of frame deltas). -/
def runMovement {α : Type} [LinearOrderedRing α] (steps : List α)
    (pm : Vec3 α × TargetMovement α) : Vec3 α × TargetMovement α :=
  steps.foldl (fun pm dt => update_target_movement dt pm.1 pm.2) pm

/-- Componentwise membership in the axis-aligned box `[mn, mx]`. -/
def inBounds {α : Type} [LinearOrderedRing α] (mn mx p : Vec3 α) : Prop :=
  mn.x ≤ p.x ∧ p.x ≤ mx.x ∧ mn.y ≤ p.y ∧ p.y ≤ mx.y ∧ mn.z ≤ p.z ∧ p.z ≤ mx.z

theorem bounceAxis_mem {α : Type} [LinearOrderedRing α] {p v mn mx dt : α}
    (hmm : mn ≤ mx) (hdt : 0 ≤ dt) (hlo : mn ≤ p) (hhi : p ≤ mx) :
    mn ≤ (bounceAxis (p + dt * v) v mn mx).1 ∧ (bounceAxis (p + dt * v) v mn mx).1 ≤ mx := by
  unfold bounceAxis
  split_ifs with h
  · exact ⟨le_clampVal _ hmm, clampVal_le _ _ _⟩
  · rw [not_or] at h
    obtain ⟨hA, hB⟩ := h
    dsimp only
    constructor
    · by_contra hlt
      push_neg at hlt
      have hv : v < 0 := by
        by_contra hv0
        push_neg at hv0
        have hprod : 0 ≤ dt * v := mul_nonneg hdt hv0
        have hge : mn ≤ p + dt * v :=
          le_trans hlo (by simpa using add_le_add_left hprod p)
        exact absurd hlt (not_lt.2 hge)
      exact hA ⟨hlt, hv⟩
    · by_contra hgt
      push_neg at hgt
      have hv : 0 < v := by
        by_contra hv0
        push_neg at hv0
        have hprod : dt * v ≤ 0 := by
          have h2 := mul_le_mul_of_nonneg_left hv0 hdt
          simpa using h2
        have hle : p + dt * v ≤ mx :=
          le_trans (by simpa using add_le_add_left hprod p) hhi
        exact absurd hgt (not_lt.2 hle)
      exact hB ⟨hgt, hv⟩

/-- C9: Linear movement with bounds: starting inside `[mn, mx]`
with `dt ≥ 0`, the frame update reverses only the velocity component of
an axis whose bound was exceeded (clamping that coordinate to the
bound) and leaves all other components at their plain integrated
values; consequently the position stays inside the box after the frame,
and it remains inside on every subsequent frame of any nonnegatively
timed run. -/
theorem C9_linear_bounce_bounds {α : Type} [LinearOrderedRing α]
    (dt : α) (pos v mn mx : Vec3 α) (hdt : 0 ≤ dt)
    (hv : v ≠ ⟨0, 0, 0⟩)
    (hbox : mn.x ≤ mx.x ∧ mn.y ≤ mx.y ∧ mn.z ≤ mx.z)
    (hpos : inBounds mn mx pos) :
    (update_target_movement dt pos (.Linear v (some (mn, mx))) =
      (⟨(bounceAxis (pos + dt • v).x v.x mn.x mx.x).1,
        (bounceAxis (pos + dt • v).y v.y mn.y mx.y).1,
        (bounceAxis (pos + dt • v).z v.z mn.z mx.z).1⟩,
       .Linear
        ⟨(bounceAxis (pos + dt • v).x v.x mn.x mx.x).2,
         (bounceAxis (pos + dt • v).y v.y mn.y mx.y).2,
         (bounceAxis (pos + dt • v).z v.z mn.z mx.z).2⟩
        (some (mn, mx)))) ∧
    (∀ p1 v1 lo hi : α,
      (((p1 < lo ∧ v1 < 0) ∨ (hi < p1 ∧ 0 < v1)) →
        bounceAxis p1 v1 lo hi = (clampVal p1 lo hi, -v1)) ∧
      (¬ ((p1 < lo ∧ v1 < 0) ∨ (hi < p1 ∧ 0 < v1)) →
        bounceAxis p1 v1 lo hi = (p1, v1))) ∧
    inBounds mn mx (update_target_movement dt pos (.Linear v (some (mn, mx)))).1 ∧
    (∀ steps : List α, (∀ d ∈ steps, 0 ≤ d) →
      inBounds mn mx
        (runMovement steps (update_target_movement dt pos (.Linear v (some (mn, mx))))).1) := by
  obtain ⟨hx1, hx2, hy1, hy2, hz1, hz2⟩ := hpos
  have hstep : ∀ (d : α) (p w : Vec3 α), 0 ≤ d → inBounds mn mx p →
      inBounds mn mx (update_target_movement d p (.Linear w (some (mn, mx)))).1 := by
    intro d p w hd hp
    obtain ⟨ha1, ha2, hb1, hb2, hc1, hc2⟩ := hp
    have hax := bounceAxis_mem (v := w.x) hbox.1 hd ha1 ha2
    have hay := bounceAxis_mem (v := w.y) hbox.2.1 hd hb1 hb2
    have haz := bounceAxis_mem (v := w.z) hbox.2.2 hd hc1 hc2
    exact ⟨hax.1, hax.2, hay.1, hay.2, haz.1, haz.2⟩
  have hone : inBounds mn mx (update_target_movement dt pos (.Linear v (some (mn, mx)))).1 :=
    hstep dt pos v hdt ⟨hx1, hx2, hy1, hy2, hz1, hz2⟩
  refine ⟨rfl, ?_, hone, ?_⟩
  · intro p1 v1 lo hi
    constructor
    · intro h
      unfold bounceAxis
      rw [if_pos h]
    · intro h
      unfold bounceAxis
      rw [if_neg h]
  · -- every subsequent frame stays inside; the movement stays Linear
    -- with the same bounds, so the single-step lemma iterates
    have hrun : ∀ (steps : List α), (∀ d ∈ steps, 0 ≤ d) →
        ∀ (p w : Vec3 α), inBounds mn mx p →
          inBounds mn mx (runMovement steps (p, .Linear w (some (mn, mx)))).1 := by
      intro steps
      induction steps with
      | nil => exact fun _ p w hp => hp
      | cons d tl ih =>
        intro hd p w hp
        have hstep1 := hstep d p w (hd d (List.mem_cons_self _ _)) hp
        show inBounds mn mx
          (runMovement tl (update_target_movement d p (.Linear w (some (mn, mx))))).1
        rw [show update_target_movement d p (.Linear w (some (mn, mx))) =
          ((update_target_movement d p (.Linear w (some (mn, mx)))).1,
           .Linear
            ⟨(bounceAxis (p + d • w).x w.x mn.x mx.x).2,
             (bounceAxis (p + d • w).y w.y mn.y mx.y).2,
             (bounceAxis (p + d • w).z w.z mn.z mx.z).2⟩
            (some (mn, mx))) from rfl]
        exact ih (fun e he => hd e (List.mem_cons_of_mem _ he)) _ _ hstep1
    intro steps hsteps
    rw [show update_target_movement dt pos (.Linear v (some (mn, mx))) =
      ((update_target_movement dt pos (.Linear v (some (mn, mx)))).1,
       .Linear
        ⟨(bounceAxis (pos + dt • v).x v.x mn.x mx.x).2,
         (bounceAxis (pos + dt • v).y v.y mn.y mx.y).2,
         (bounceAxis (pos + dt • v).z v.z mn.z mx.z).2⟩
        (some (mn, mx))) from rfl]
    exact hrun steps hsteps _ _ hone

/-- Witness for C9: an integer-valued instance; a target at the origin
with velocity `(2,0,0)`, bounds `[-1,1]^3` and `dt = 1` stays inside
the box after the frame. -/
theorem C9_linear_bounce_bounds_witness :
    inBounds (⟨-1, -1, -1⟩ : Vec3 ℤ) ⟨1, 1, 1⟩
      (update_target_movement 1 ⟨0, 0, 0⟩
        (.Linear ⟨2, 0, 0⟩ (some (⟨-1, -1, -1⟩, ⟨1, 1, 1⟩)))).1 :=
  (C9_linear_bounce_bounds 1 ⟨0, 0, 0⟩ ⟨2, 0, 0⟩ ⟨-1, -1, -1⟩ ⟨1, 1, 1⟩
    (by decide) (by decide) (by decide) (by unfold inBounds; decide)).2.2.1

/-! Section: Points bookkeeping of the main prototype (`src/main.rs`,
`click_targets` / `process_hit_result`) -/

/-- The `process_hit_result` (`src/main.rs` lines 436-455): on a ray hit of
a `Target` entity, despawn it, spawn one replacement
(`spawn_random_target` spawns exactly one target via
`spawn_target_in_fov` / `spawn_target_with_movement`) and add one
point; on a hit of anything else, or no hit at all, subtract one point.
The result is `(new points, despawned entity, number of targets
spawned)`. -/
def process_hit_result (hit_result : Option (ℕ × ℚ)) (targets : List ℕ)
    (points : ℤ) : ℤ × Option ℕ × ℕ :=
  match hit_result with
  | some (entity, _) =>
    if entity ∈ targets then (points + 1, some entity, 1)
    else (points - 1, none, 0)
  | none => (points - 1, none, 0)

/-- The `click_targets` (`src/main.rs` lines 392-432): tick the shoot
stopwatch; return unchanged unless the fire button is held and the
elapsed cooldown exceeds `0.1` seconds; otherwise process the ray hit
and reset the stopwatch unconditionally. The result is `(points,
despawned entity, spawn count, stopwatch elapsed)`. -/
def click_targets (pressed : Bool) (elapsed dt : ℚ) (hit_result : Option (ℕ × ℚ))
    (targets : List ℕ) (points : ℤ) : ℤ × Option ℕ × ℕ × ℚ :=
  if ¬ pressed then (points, none, 0, elapsed + dt)
  else if elapsed + dt ≤ 1/10 then (points, none, 0, elapsed + dt)
  else
    ((process_hit_result hit_result targets points).1,
     (process_hit_result hit_result targets points).2.1,
     (process_hit_result hit_result targets points).2.2, 0)

/-- C10: A shot rejected by the press/cooldown gate changes
nothing; every accepted shot resets the cooldown and changes `Points`
by exactly one — `+1` with the hit target despawned and exactly one
replacement spawned when the first ray hit is a `Target`, `-1` with no
despawn/spawn when the first hit is a non-target entity, and `-1`
likewise when the ray hits nothing. -/
theorem C10_points_change_per_shot (pressed : Bool) (elapsed dt : ℚ)
    (hit_result : Option (ℕ × ℚ)) (targets : List ℕ) (points : ℤ) :
    (pressed = false ∨ elapsed + dt ≤ 1/10 →
      click_targets pressed elapsed dt hit_result targets points =
        (points, none, 0, elapsed + dt)) ∧
    (pressed = true → 1/10 < elapsed + dt →
      (click_targets pressed elapsed dt hit_result targets points).2.2.2 = 0 ∧
      (∀ entity d, hit_result = some (entity, d) → entity ∈ targets →
        (click_targets pressed elapsed dt hit_result targets points).1 = points + 1 ∧
        (click_targets pressed elapsed dt hit_result targets points).2.1 = some entity ∧
        (click_targets pressed elapsed dt hit_result targets points).2.2.1 = 1) ∧
      (∀ entity d, hit_result = some (entity, d) → entity ∉ targets →
        (click_targets pressed elapsed dt hit_result targets points).1 = points - 1 ∧
        (click_targets pressed elapsed dt hit_result targets points).2.1 = none ∧
        (click_targets pressed elapsed dt hit_result targets points).2.2.1 = 0) ∧
      (hit_result = none →
        (click_targets pressed elapsed dt hit_result targets points).1 = points - 1 ∧
        (click_targets pressed elapsed dt hit_result targets points).2.1 = none ∧
        (click_targets pressed elapsed dt hit_result targets points).2.2.1 = 0) ∧
      ((click_targets pressed elapsed dt hit_result targets points).1 = points + 1 ∨
        (click_targets pressed elapsed dt hit_result targets points).1 = points - 1)) := by
  constructor
  · intro h
    rcases h with h | h
    · simp [click_targets, h]
    · rcases pressed with _ | _
      · simp [click_targets]
      · simp [click_targets, h]
        intro hc
        rw [show ((10:ℚ)⁻¹) = 1/10 by norm_num] at hc
        exact absurd hc (not_lt.2 h)
  · intro hp hcd
    subst hp
    have hgate : click_targets true elapsed dt hit_result targets points =
        ((process_hit_result hit_result targets points).1,
         (process_hit_result hit_result targets points).2.1,
         (process_hit_result hit_result targets points).2.2, 0) := by
      simp [click_targets, not_le.2 hcd]
      intro hc
      rw [show ((10:ℚ)⁻¹) = 1/10 by norm_num] at hc
      exact absurd hcd (not_lt.2 hc)
    rw [hgate]
    refine ⟨rfl, ?_, ?_, ?_, ?_⟩
    · intro entity d hh hmem
      rw [hh]
      simp [process_hit_result, hmem]
    · intro entity d hh hmem
      rw [hh]
      simp [process_hit_result, hmem]
    · intro hh
      rw [hh]
      simp [process_hit_result]
    · rcases hit_result with _ | ⟨entity, d⟩
      · right
        simp [process_hit_result]
      · by_cases hmem : entity ∈ targets
        · left
          simp [process_hit_result, hmem]
        · right
          simp [process_hit_result, hmem]

/-- Witness for C10: an accepted shot whose ray first hits target `5`
raises the points from 10 to 11. -/
theorem C10_points_change_per_shot_witness :
    (click_targets true 0 1 (some (5, 3)) [5, 9] 10).1 = 11 := by
  have h := (C10_points_change_per_shot true 0 1 (some (5, 3)) [5, 9] 10).2 rfl
    (by norm_num)
  have h5 := h.2.1 5 3 rfl (by decide)
  rw [h5.1]
  norm_num

end AimTrainer
